import Mathlib

/-!
Verification of the orchestration core of the Firmia gateway.

Shallow embeddings of the Python source:
* `src/resilience/retry.py` — retryable-error predicate and bounded retry loop
* `src/resilience/circuit_breaker.py` — three-state circuit breaker
* `src/auth/base.py` — token freshness and refresh-on-access
* `src/cache/manager.py` — cache-key derivation and fixed-window rate limiting
* `src/cache/duckdb_cache.py` — bulk parquet load with staging swap
* `src/privacy/filters.py` — rule-driven redaction
* `src/tools/search_companies.py` — multi-source merge, scoring, pagination

Machine integers are modelled as `Nat` with explicit `% 2 ^ w` where overflow
matters; wall-clock instants are `Nat` seconds (or `ℚ` seconds where
sub-second precision is observable); fallible operations return sum types.
-/

namespace Firmia

/-! ## Definitions -/

/-! ### Retry executor (src/resilience/retry.py) -/

/-- Exception shapes distinguished by `should_retry_exception`: an exception
carrying `response.status_code` (HTTP error), one of the listed network error
classes (`asyncio.TimeoutError`, `ConnectionError` family), or anything else. -/
inductive Exc
  | net
  | http (status : Nat)
  | other
deriving DecidableEq, Repr

/-- Fields of `RetryConfig` that the retry decision reads (backoff timing
fields are irrelevant to which attempts happen). -/
structure RetryConfig where
  max_attempts : Nat
  retry_on_status : List Nat
  dont_retry_on_status : List Nat
deriving DecidableEq, Repr

/-- Embedding of `get_default_retry_config` (retry.py:37-46). -/
def get_default_retry_config : RetryConfig :=
  { max_attempts := 3
    retry_on_status := [500, 502, 503, 504, 429]
    dont_retry_on_status := [400, 401, 403, 404] }

/-- Embedding of `should_retry_exception` (retry.py:49-75): an HTTP error is
checked against the deny list first, then the allow list; an HTTP error
matching neither falls through to the network-error check (which it fails);
pure network errors retry; everything else does not. -/
def should_retry_exception (e : Exc) (config : RetryConfig) : Bool :=
  match e with
  | .http status =>
      if status ∈ config.dont_retry_on_status then false
      else if status ∈ config.retry_on_status then true
      else false
  | .net => true
  | .other => false

/-- Outcome of a single attempt of the wrapped coroutine. -/
inductive Outcome (α : Type)
  | ok (v : α)
  | exc (e : Exc)
deriving DecidableEq, Repr

/-- Result of the whole retried call: a value, the original exception
re-raised because it was not retryable, or tenacity's `RetryError` after the
attempt budget is exhausted on a retryable exception. -/
inductive RetryResult (α : Type)
  | success (v : α)
  | raised (e : Exc)
  | retryError (e : Exc)
deriving DecidableEq, Repr

/-- One step of the tenacity loop built by `retry_with_backoff`
(retry.py:93-127): run attempt `i`; on success return; on failure consult
`should_retry_exception` (the `custom_retry` predicate); a retryable failure
with attempts remaining loops, an exhausted budget yields `RetryError`
(`stop_after_attempt`), a non-retryable failure re-raises. `fuel` is the
number of attempts still allowed after attempt `i`. -/
def retryGo (config : RetryConfig) (f : Nat → Outcome α) :
    Nat → Nat → RetryResult α × Nat
  | 0, i =>
    match f i with
    | .ok v => (.success v, i)
    | .exc e =>
      if should_retry_exception e config then (.retryError e, i)
      else (.raised e, i)
  | fuel + 1, i =>
    match f i with
    | .ok v => (.success v, i)
    | .exc e =>
      if should_retry_exception e config then retryGo config f fuel (i + 1)
      else (.raised e, i)

/-- Embedding of a call through the `retry_with_backoff` decorator
(retry.py:93-127): attempts are numbered from 1 and
`stop_after_attempt(max_attempts)` allows `max_attempts - 1` further attempts
after the first. Returns the result together with the number of attempts
actually made. -/
def retry_with_backoff (config : RetryConfig) (f : Nat → Outcome α) :
    RetryResult α × Nat :=
  retryGo config f (config.max_attempts - 1) 1

/-- Retryable predicate exactly as the specification words it: connection or
timeout errors, or an HTTP error whose status is in {500, 502, 503, 504, 429}
and not in {400, 401, 403, 404}. -/
def spec_retryable (e : Exc) : Bool :=
  match e with
  | .net => true
  | .http s =>
      decide (s ∈ [500, 502, 503, 504, 429]) && !decide (s ∈ [400, 401, 403, 404])
  | .other => false

/-! ### Circuit breaker (src/resilience/circuit_breaker.py) -/

/-- Embedding of the `CircuitState` enum (circuit_breaker.py:18-22). -/
inductive CircuitState
  | CLOSED
  | OPEN
  | HALF_OPEN
deriving DecidableEq, Repr

/-- Embedding of the mutable state and configuration of a `CircuitBreaker`
instance (circuit_breaker.py:28-49). Times are `Nat` seconds from
`datetime.utcnow()`. -/
structure CircuitBreaker where
  failure_threshold : Nat
  recovery_timeout : Nat
  half_open_max_calls : Nat
  state : CircuitState
  failure_count : Nat
  last_failure_time : Option Nat
  success_count : Nat
  half_open_calls : Nat
deriving DecidableEq, Repr

/-- Embedding of `CircuitBreaker._should_attempt_recovery`
(circuit_breaker.py:93-99). -/
def CircuitBreaker.shouldAttemptRecovery (cb : CircuitBreaker) (now : Nat) : Bool :=
  match cb.last_failure_time with
  | none => true
  | some t => decide (cb.recovery_timeout ≤ now - t)

/-- Embedding of `CircuitBreaker._open_circuit` (circuit_breaker.py:134-138). -/
def CircuitBreaker.openCircuit (cb : CircuitBreaker) : CircuitBreaker :=
  { cb with state := .OPEN }

/-- Embedding of `CircuitBreaker._close_circuit` (circuit_breaker.py:140-145). -/
def CircuitBreaker.closeCircuit (cb : CircuitBreaker) : CircuitBreaker :=
  { cb with state := .CLOSED, failure_count := 0, success_count := 0 }

/-- Embedding of `CircuitBreaker._on_success` (circuit_breaker.py:101-112). -/
def CircuitBreaker.onSuccess (cb : CircuitBreaker) : CircuitBreaker :=
  let cb :=
    if cb.state = .HALF_OPEN then { cb with success_count := cb.success_count + 1 }
    else cb
  if cb.state = .CLOSED then { cb with failure_count := 0 } else cb

/-- Embedding of `CircuitBreaker._on_failure` (circuit_breaker.py:114-132). -/
def CircuitBreaker.onFailure (cb : CircuitBreaker) (now : Nat) : CircuitBreaker :=
  let cb := { cb with last_failure_time := some now }
  if cb.state = .CLOSED then
    let cb := { cb with failure_count := cb.failure_count + 1 }
    if cb.failure_threshold ≤ cb.failure_count then cb.openCircuit else cb
  else if cb.state = .HALF_OPEN then cb.openCircuit
  else cb

/-- Behaviour of the protected coroutine for one invocation: return normally,
raise an exception matched by `expected_exception`, or raise anything else. -/
inductive FuncBehavior
  | ok
  | raiseExpected
  | raiseUnexpected
deriving DecidableEq, Repr

/-- Observable outcome of one `CircuitBreaker.call` invocation. `blocked`
stands for an `await` that never completes: acquiring the non-reentrant
`asyncio.Lock` while the same task already holds it. -/
inductive CallOutcome
  | success
  | expectedRaise
  | unexpectedRaise
  | rejectedOpen
  | blocked
deriving DecidableEq, Repr

/-- Embedding of the body of `CircuitBreaker.call` after the lock section
(circuit_breaker.py:79-91): run the function, then update breaker state. -/
def CircuitBreaker.runFunc (cb : CircuitBreaker) (now : Nat) (f : FuncBehavior) :
    CallOutcome × CircuitBreaker × Bool :=
  match f with
  | .ok => (.success, cb.onSuccess, true)
  | .raiseExpected => (.expectedRaise, cb.onFailure now, true)
  | .raiseUnexpected => (.unexpectedRaise, cb, true)

/-- Invocation of `CircuitBreaker.call` by a task that already holds
`self._lock`. The method's first statement is `async with self._lock`;
`asyncio.Lock` is non-reentrant and the would-be releaser is the awaiter
itself, so the acquisition never completes: the invocation is `blocked`,
the function is never invoked, and no state change is observed. -/
def CircuitBreaker.callHoldingLock (cb : CircuitBreaker) (_now : Nat)
    (_f : FuncBehavior) : CallOutcome × CircuitBreaker × Bool :=
  (.blocked, cb, false)

/-- Embedding of `CircuitBreaker.call` (circuit_breaker.py:51-91) invoked with
the lock free. The recursive `return await self.call(...)` at
circuit_breaker.py:74 runs inside the `async with self._lock` block, i.e. while
the current task still holds the lock, so it is `callHoldingLock`. The third
component records whether `func` was invoked. -/
def CircuitBreaker.call (cb : CircuitBreaker) (now : Nat)
    (f : FuncBehavior) : CallOutcome × CircuitBreaker × Bool :=
  let cb1 :=
    if cb.state = .OPEN then
      if cb.shouldAttemptRecovery now then
        { cb with state := .HALF_OPEN, half_open_calls := 0 }
      else cb
    else cb
  if cb1.state = .OPEN then
    (.rejectedOpen, cb1, false)
  else if cb1.state = .HALF_OPEN then
    if cb1.half_open_max_calls ≤ cb1.half_open_calls then
      let cb2 := if 0 < cb1.success_count then cb1.closeCircuit else cb1.openCircuit
      cb2.callHoldingLock now f
    else
      CircuitBreaker.runFunc
        { cb1 with half_open_calls := cb1.half_open_calls + 1 } now f
  else
    CircuitBreaker.runFunc cb1 now f

/-! ### Credential store (src/auth/base.py) -/

/-- Embedding of the `Token` model (base.py:14-19); `expires_at` is a UTC
instant in seconds, rational because `datetime` carries sub-second precision.
Fields not read by `get_token` (token_type, refresh_token) are omitted. -/
structure Token where
  value : String
  expires_at : Option ℚ
deriving DecidableEq, Repr

/-- Embedding of `Token.is_expired` (base.py:21-26):
`datetime.utcnow() >= self.expires_at`, false when no expiry is recorded. -/
def Token.is_expired (tok : Token) (now : ℚ) : Bool :=
  match tok.expires_at with
  | none => false
  | some t => decide (t ≤ now)

/-- Embedding of `Token.expires_in_seconds` (base.py:28-34):
`int(delta.total_seconds())` when positive (truncation toward zero, i.e.
floor for a positive delta), else 0; `None` without an expiry. -/
def Token.expires_in_seconds (tok : Token) (now : ℚ) : Option Int :=
  match tok.expires_at with
  | none => none
  | some t => if 0 < t - now then some ⌊t - now⌋ else some 0

/-- Embedding of `AuthClient.get_token` (base.py:56-80) for one call.
`token` is the cached `self._token`; `authRes` is the token that
`authenticate()` would return; `refreshRes` is `refresh()`'s result (`none` =
raises). Returns the token value handed to the caller, the new cached token,
and whether a refresh or re-authentication was attempted during the call.
The Python condition `self._token.expires_in_seconds and ... < 300` skips
the proactive refresh when the property is `None` or `0` (falsy). -/
def AuthClient.get_token (token : Option Token) (now : ℚ)
    (authRes : Token) (refreshRes : Option Token) : String × Option Token × Bool :=
  match token with
  | none => (authRes.value, some authRes, true)
  | some tok =>
    if tok.is_expired now then
      match refreshRes with
      | some t => (t.value, some t, true)
      | none => (authRes.value, some authRes, true)
    else
      match tok.expires_in_seconds now with
      | some n =>
        if n ≠ 0 ∧ n < 300 then
          match refreshRes with
          | some t => (t.value, some t, true)
          | none => (tok.value, some tok, true)
        else (tok.value, some tok, false)
      | none => (tok.value, some tok, false)

/-- Freshness as the specification words it: the token's expiry is strictly
later than `now` (a token without a recorded expiry never expires). -/
def Token.fresh (tok : Token) (now : ℚ) : Prop :=
  match tok.expires_at with
  | none => True
  | some t => now < t

/-! ### Analytic store bulk load (src/cache/duckdb_cache.py) -/

/-- Statements of `_load_parquet_sync` at which a failure can be injected
(duckdb_cache.py:144-190), in execution order: the `CREATE OR REPLACE TABLE
<t>_staging AS SELECT * FROM parquet_scan(...)`, the staging `COUNT(*)`, the
three statements of the explicit swap transaction, and the metadata
`INSERT OR REPLACE` that runs after the swap has committed. -/
inductive LoadStep
  | ctas
  | countRows
  | dropOld
  | renameMain
  | renameStaging
  | insertMeta
deriving DecidableEq, Repr

/-- Tables touched by `_load_parquet_sync` for a fixed `table_name`: the
table itself, `<table>_staging`, `<table>_old` (each `none` when absent,
otherwise its list of rows) and the `cache_metadata` record count. -/
structure DuckDBState (ρ : Type) where
  main : Option (List ρ)
  staging : Option (List ρ)
  old : Option (List ρ)
  meta : Option Nat
deriving DecidableEq, Repr

/-- Embedding of `DuckDBCache._load_parquet_sync` (duckdb_cache.py:144-190).
`fileRows` is the content of the parquet file, `failAt` injects a failure at
one statement (`none` = clean run). Statements outside `BEGIN`/`COMMIT` are
autocommitted and each statement is atomic (a failing `CREATE ... AS SELECT`
leaves no table); a failure between `BEGIN` and `COMMIT` rolls the open
transaction back (duckdb_cache.py:189 `self._conn.rollback()`), restoring
the state at `BEGIN` — but nothing deletes `<table>_staging`. On error the
post-rollback state is returned in `Except.error`; success returns the state
and the row count. -/
def _load_parquet_sync (fileRows : List ρ) (failAt : Option LoadStep)
    (db : DuckDBState ρ) : Except (DuckDBState ρ) (DuckDBState ρ × Nat) :=
  if failAt = some .ctas then .error db
  else
    let db1 := { db with staging := some fileRows }
    if failAt = some .countRows then .error db1
    else
      let count := fileRows.length
      -- BEGIN
      if failAt = some .dropOld then .error db1
      else
        let db2 := { db1 with old := none }
        if failAt = some .renameMain then .error db1
        else
          -- ALTER TABLE t RENAME TO t_old fails when t does not exist
          match db2.main with
          | none => .error db1
          | some rows =>
            let db3 := { db2 with old := some rows, main := none }
            if failAt = some .renameStaging then .error db1
            else
              let db4 := { db3 with main := db3.staging, staging := none }
              -- COMMIT; the metadata upsert below autocommits separately
              if failAt = some .insertMeta then .error db4
              else .ok ({ db4 with meta := some count }, count)

/-! ### Rate limiter (src/cache/manager.py) -/

/-- State of one Redis rate-limit key (`rl:<api>:<client_id>`): `none` when
the key is absent, otherwise `(count, windowStart)`; Redis expires the key at
`windowStart + window` (the TTL is set only on the first write, and `INCR`
preserves it). -/
def RateLimitKey : Type := Option (Nat × Nat)

/-- Embedding of `CacheManager.check_rate_limit` (manager.py:127-154) acting
on one key at instant `now`. A `get` on an absent or expired key yields
`None`, in which case the counter is created with value 1 and TTL `window`
and the call is admitted; a live counter at or above `limit` denies with the
remaining TTL; otherwise `INCR` and admit. Returns `((ok, retry_after_or_
remaining), newState)`. -/
def check_rate_limit (limit window : Nat) (st : Option (Nat × Nat)) (now : Nat) :
    (Bool × Nat) × Option (Nat × Nat) :=
  match st with
  | none => ((true, 1), some (1, now))
  | some (c, s) =>
    if now < s + window then
      if limit ≤ c then ((false, s + window - now), some (c, s))
      else ((true, limit - (c + 1)), some (c + 1, s))
    else ((true, 1), some (1, now))

/-- Window start recorded in a rate-limit state (0 when absent; the state
after a `check_rate_limit` step is never absent). -/
def rlTag : Option (Nat × Nat) → Nat
  | none => 0
  | some (_, s) => s

/-- Run `check_rate_limit` over a list of call instants, logging for each
call its time, whether it was admitted, and the start of the fixed window
that served it. -/
def rlRun (limit window : Nat) :
    Option (Nat × Nat) → List Nat → List (Nat × Bool × Nat) × Option (Nat × Nat)
  | st, [] => ([], st)
  | st, t :: ts =>
    let r := check_rate_limit limit window st t
    let rest := rlRun limit window r.2 ts
    ((t, r.1.1, rlTag r.2) :: rest.1, rest.2)

/-- Number of admitted calls served by the fixed window starting at `s`. -/
def countAdmitsTagged (log : List (Nat × Bool × Nat)) (s : Nat) : Nat :=
  (log.filter fun e => e.2.1 && (e.2.2 == s)).length

/-- Number of admitted calls whose instant lies in the interval `[lo, hi)`. -/
def countAdmitsIn (log : List (Nat × Bool × Nat)) (lo hi : Nat) : Nat :=
  (log.filter fun e => e.2.1 && (decide (lo ≤ e.1) && decide (e.1 < hi))).length

/-- Admits already granted by the current rate-limit state to the fixed
window starting at `s` (0 for any other window or an absent key). -/
def rlCur (st : Option (Nat × Nat)) (s : Nat) : Nat :=
  match st with
  | some (c, s0) => if s = s0 then c else 0
  | none => 0

/-! ### Multi-source search merge (src/tools/search_companies.py) -/

/-- Python code-point comparison of strings (used inside the sort key). -/
def charListLT : List Char → List Char → Bool
  | [], [] => false
  | [], _ :: _ => true
  | _ :: _, [] => false
  | a :: as, b :: bs =>
    if a.toNat < b.toNat then true
    else if b.toNat < a.toNat then false
    else charListLT as bs

/-- Stable insertion of `x` into a stably sorted list: `x` goes before the
first element not strictly below it, preserving the original order of
equal-key elements — the output of any stable sort (such as Python's
`list.sort`) under a total preorder. -/
def insertSorted (le : α → α → Bool) (x : α) : List α → List α
  | [] => [x]
  | y :: ys => if le x y then x :: y :: ys else y :: insertSorted le x ys

/-- Stable sort by insertion; agrees with Python's stable `list.sort(key=...)`
for the total preorder induced by the key. -/
def sortStable (le : α → α → Bool) : List α → List α
  | [] => []
  | x :: xs => insertSorted le x (sortStable le xs)

/-- JSON-like data over which the privacy filter operates (Python dicts keep
insertion order, so objects are ordered association lists). -/
inductive JVal
  | str (s : String)
  | num (n : Int)
  | bool (b : Bool)
  | null
  | arr (elems : List JVal)
  | obj (entries : List (String × JVal))

mutual
/-- Python `==` on JSON-like values. The built-in rules only ever compare a
field against a scalar (`"P"`, `True`, `"PHYSIQUE"`), where Python equality
coincides with structural equality. -/
def JVal.beq : JVal → JVal → Bool
  | .str a, .str b => a == b
  | .num a, .num b => a == b
  | .bool a, .bool b => a == b
  | .null, .null => true
  | .arr a, .arr b => JVal.beqList a b
  | .obj a, .obj b => JVal.beqObj a b
  | _, _ => false

/-- Pointwise Python `==` on JSON lists. -/
def JVal.beqList : List JVal → List JVal → Bool
  | [], [] => true
  | a :: as, b :: bs => JVal.beq a b && JVal.beqList as bs
  | _, _ => false

/-- Pointwise Python `==` on JSON object entries. -/
def JVal.beqObj : List (String × JVal) → List (String × JVal) → Bool
  | [], [] => true
  | (ka, va) :: as, (kb, vb) :: bs =>
    ka == kb && JVal.beq va vb && JVal.beqObj as bs
  | _, _ => false
end

/-- Python truthiness of a JSON-like value. -/
def JVal.truthy : JVal → Bool
  | .str s => decide (s ≠ "")
  | .num n => decide (n ≠ 0)
  | .bool b => b
  | .null => false
  | .arr l => !l.isEmpty
  | .obj l => !l.isEmpty

/-- Embedding of the `PrivacyRule` model (filters.py:15-22). -/
structure PrivacyRule where
  name : String
  condition : String
  condition_value : JVal
  fields_to_remove : List String
  fields_to_mask : List (String × String)
  applies_to : List String

/-- Embedding of `PrivacyFilter._initialize_rules` (filters.py:32-74): the
four built-in rules, verbatim. -/
def _initialize_rules : List PrivacyRule :=
  [{ name := "mask_protected_addresses"
     condition := "privacy_status"
     condition_value := .str "P"
     fields_to_remove := ["street", "latitude", "longitude"]
     fields_to_mask := []
     applies_to := ["Company", "CompanySearchResult", "Establishment"] },
   { name := "remove_birth_details"
     condition := "is_individual"
     condition_value := .bool true
     fields_to_remove := ["birth_date", "birth_place"]
     fields_to_mask := [("birth_date", "YYYY-MM")]
     applies_to := ["Executive", "BeneficialOwner"] },
   { name := "insee_diffusion_protected"
     condition := "statut_diffusion"
     condition_value := .str "P"
     fields_to_remove := ["voie", "numVoie", "latitude", "longitude"]
     fields_to_mask := []
     applies_to := ["Company", "Establishment"] },
   { name := "executive_privacy"
     condition := "person_type"
     condition_value := .str "PHYSIQUE"
     fields_to_remove := ["date_naissance_complete", "lieu_naissance"]
     fields_to_mask := [("date_naissance", "YYYY-MM")]
     applies_to := ["Executive", "Representative"] }]

/-- First binding of a key in an ordered dict (Python `data.get(key)` /
`key in data`). -/
def jsonLookup : List (String × JVal) → String → Option JVal
  | [], _ => none
  | (k, v) :: rest, key => if k = key then some v else jsonLookup rest key

/-- Embedding of the condition check of `_apply_rule_to_dict`
(filters.py:117-123): the rule fires iff the condition field is present and
Python-equal to the condition value (the `callable` branch is unused by the
built-in rules). -/
def PrivacyRule.condMet (rule : PrivacyRule) (data : List (String × JVal)) : Bool :=
  match jsonLookup data rule.condition with
  | some v => JVal.beq v rule.condition_value
  | none => false

/-- Mask specification registered for a field, if any. -/
def PrivacyRule.maskSpec (rule : PrivacyRule) (key : String) : Option String :=
  List.lookup key rule.fields_to_mask

/-- Python `s[:7]` on the characters of a string. -/
def pySlice7 (s : String) : String := String.mk (s.toList.take 7)

/-- Embedding of the masking assignment of `_apply_rule_to_dict`
(filters.py:137-148) for one truthy present field: under the `"YYYY-MM"`
spec a string of length ≥ 7 is cut to its first 7 characters (the
`datetime` branch cannot occur on JSON data) and anything else is left
untouched (`none`); under any other spec the field is replaced by the spec
string itself. -/
def maskOutcome (spec : String) (v : JVal) : Option JVal :=
  if spec = "YYYY-MM" then
    match v with
    | .str s => if 7 ≤ s.length then some (.str (pySlice7 s)) else none
    | _ => none
  else some (.str spec)

mutual
/-- Embedding of `_apply_rule` (filters.py:95-112) on JSON data: dicts go
through the condition/remove/mask/recurse pipeline, list items are filtered
elementwise, scalars pass through. (The early return at filters.py:125-126
means a dict whose condition is not met is returned unchanged, with no
recursion into its children.) -/
def applyRuleVal (rule : PrivacyRule) : JVal → JVal
  | .obj entries =>
      .obj (if rule.condMet entries then applyRuleEntries rule entries else entries)
  | .arr elems => .arr (applyRuleArr rule elems)
  | v => v

/-- Elementwise `_apply_rule` over a JSON list (filters.py:101). -/
def applyRuleArr (rule : PrivacyRule) : List JVal → List JVal
  | [] => []
  | v :: rest => applyRuleVal rule v :: applyRuleArr rule rest

/-- Body of `_apply_rule_to_dict` after the condition held
(filters.py:128-161), entry by entry: a key in `fields_to_remove` is popped
(removals run before masks, so a key in both lists is removed and the mask
never applies); otherwise a registered mask is applied when the value is
truthy; the recursion loop then descends into dict and list values (a masked
value is a string, on which the recursion is the identity). -/
def applyRuleEntries (rule : PrivacyRule) :
    List (String × JVal) → List (String × JVal)
  | [] => []
  | (k, v) :: rest =>
    if k ∈ rule.fields_to_remove then applyRuleEntries rule rest
    else
      match rule.maskSpec k with
      | some spec =>
        if v.truthy then
          match maskOutcome spec v with
          | some v' => (k, v') :: applyRuleEntries rule rest
          | none => (k, applyRuleVal rule v) :: applyRuleEntries rule rest
        else (k, applyRuleVal rule v) :: applyRuleEntries rule rest
      | none => (k, applyRuleVal rule v) :: applyRuleEntries rule rest
end

/-- Embedding of `_apply_rule_to_dict` (filters.py:114-161) at top level. -/
def _apply_rule_to_dict (rule : PrivacyRule) (data : List (String × JVal)) :
    List (String × JVal) :=
  if rule.condMet data then applyRuleEntries rule data else data

/-- Embedding of `PrivacyFilter.apply_filters` (filters.py:76-93) on JSON
data with an explicit `model_type`: each built-in rule whose `applies_to`
contains the model type is applied in order. -/
def apply_filters (data : JVal) (model_type : String) : JVal :=
  _initialize_rules.foldl
    (fun d rule =>
      if model_type ∈ rule.applies_to then applyRuleVal rule d else d)
    data

/-- Entries of a JSON object (Python code paths reaching this always hold a
dict). -/
def objEntries : JVal → List (String × JVal)
  | .obj entries => entries
  | _ => []

/-- Embedding of `PrivacyFilter._filter_address` (filters.py:189-206) on
JSON data: a protected address keeps only `postal_code` and `city`
(`dict.get` yields `None` for a missing key). -/
def _filter_address (address : JVal) : JVal :=
  match address with
  | .null => .null
  | .obj entries =>
      .obj [("postal_code", (jsonLookup entries "postal_code").getD .null),
            ("city", (jsonLookup entries "city").getD .null)]
  | v => v

/-- In-place update of a dict entry when present (Python `d[k] = f(d[k])`
keeps the key's position; absent keys are untouched, matching the
`if k in filtered` guards). -/
def updateEntry (entries : List (String × JVal)) (key : String)
    (f : JVal → JVal) : List (String × JVal) :=
  entries.map (fun kv => if kv.1 = key then (kv.1, f kv.2) else kv)

/-- Embedding of `PrivacyFilter.filter_company` (filters.py:163-187) on a
dict: run `apply_filters(·, "Company")`, filter each executive and
establishment, and replace the address by its protected projection when
`privacy_status == "P"`. -/
def filter_company (company : List (String × JVal)) : List (String × JVal) :=
  let f0 := objEntries (apply_filters (.obj company) "Company")
  let f1 := updateEntry f0 "executives" fun v =>
    match v with
    | .arr ex => .arr (ex.map fun e => apply_filters e "Executive")
    | v => v
  let f2 := updateEntry f1 "establishments" fun v =>
    match v with
    | .arr es => .arr (es.map fun e => apply_filters e "Establishment")
    | v => v
  match jsonLookup f2 "privacy_status" with
  | some v =>
    if JVal.beq v (.str "P") then updateEntry f2 "address" _filter_address
    else f2
  | none => f2

/-! ### Cache key derivation (src/cache/manager.py) -/

/-- UTF-8 bytes of one character (Python `str.encode()`). -/
def utf8Char (c : Char) : List Nat :=
  let n := c.toNat
  if n < 128 then [n]
  else if n < 2048 then [192 + n / 64, 128 + n % 64]
  else if n < 65536 then [224 + n / 4096, 128 + n / 64 % 64, 128 + n % 64]
  else [240 + n / 262144, 128 + n / 4096 % 64, 128 + n / 64 % 64, 128 + n % 64]

/-- UTF-8 encoding of a string (Python `str.encode()`), as bytes in `Nat`. -/
def utf8Encode (s : String) : List Nat := (s.toList.map utf8Char).flatten

/-- Truncation to 32 bits. -/
def m32 (x : Nat) : Nat := x % 4294967296

/-- 32-bit left rotation (operand below `2 ^ 32`). -/
def rotl32 (x c : Nat) : Nat := m32 (x * 2 ^ c) ||| x / 2 ^ (32 - c)

/-- 32-bit complement. -/
def mnot32 (x : Nat) : Nat := x ^^^ 4294967295

/-- The MD5 sine-derived constant table `K` (RFC 1321). -/
def md5K : List Nat :=
  [3614090360, 3905402710, 606105819, 3250441966, 4118548399, 1200080426,
   2821735955, 4249261313, 1770035416, 2336552879, 4294925233, 2304563134,
   1804603682, 4254626195, 2792965006, 1236535329, 4129170786, 3225465664,
   643717713, 3921069994, 3593408605, 38016083, 3634488961, 3889429448,
   568446438, 3275163606, 4107603335, 1163531501, 2850285829, 4243563512,
   1735328473, 2368359562, 4294588738, 2272392833, 1839030562, 4259657740,
   2763975236, 1272893353, 4139469664, 3200236656, 681279174, 3936430074,
   3572445317, 76029189, 3654602809, 3873151461, 530742520, 3299628645,
   4096336452, 1126891415, 2878612391, 4237533241, 1700485571, 2399980690,
   4293915773, 2240044497, 1873313359, 4264355552, 2734768916, 1309151649,
   4149444226, 3174756917, 718787259, 3951481745]

/-- The MD5 per-round shift table `s` (RFC 1321). -/
def md5S : List Nat :=
  [7, 12, 17, 22, 7, 12, 17, 22, 7, 12, 17, 22, 7, 12, 17, 22,
   5, 9, 14, 20, 5, 9, 14, 20, 5, 9, 14, 20, 5, 9, 14, 20,
   4, 11, 16, 23, 4, 11, 16, 23, 4, 11, 16, 23, 4, 11, 16, 23,
   6, 10, 15, 21, 6, 10, 15, 21, 6, 10, 15, 21, 6, 10, 15, 21]

/-- MD5 round function for step `i`. -/
def md5F (i b c d : Nat) : Nat :=
  if i < 16 then (b &&& c) ||| (mnot32 b &&& d)
  else if i < 32 then (d &&& b) ||| (mnot32 d &&& c)
  else if i < 48 then b ^^^ c ^^^ d
  else c ^^^ (b ||| mnot32 d)

/-- MD5 message-word index for step `i`. -/
def md5G (i : Nat) : Nat :=
  if i < 16 then i
  else if i < 32 then (5 * i + 1) % 16
  else if i < 48 then (3 * i + 5) % 16
  else (7 * i) % 16

/-- Little-endian 32-bit word read from the byte stream. -/
def wordAt (bytes : List Nat) (off : Nat) : Nat :=
  bytes.getD off 0 + 256 * bytes.getD (off + 1) 0 + 65536 * bytes.getD (off + 2) 0
    + 16777216 * bytes.getD (off + 3) 0

/-- One of the 64 MD5 steps on state `(a, b, c, d)`. -/
def md5Step (bytes : List Nat) (chunkOff : Nat) (st : Nat × Nat × Nat × Nat)
    (i : Nat) : Nat × Nat × Nat × Nat :=
  let f := m32 (md5F i st.2.1 st.2.2.1 st.2.2.2 + st.1 + md5K.getD i 0 +
    wordAt bytes (chunkOff + 4 * md5G i))
  (st.2.2.2, m32 (st.2.1 + rotl32 f (md5S.getD i 0)), st.2.1, st.2.2.1)

/-- Process one 64-byte chunk at offset `chunkOff`. -/
def md5Chunk (bytes : List Nat) (chunkOff : Nat) (st : Nat × Nat × Nat × Nat) :
    Nat × Nat × Nat × Nat :=
  let r := (List.range 64).foldl (md5Step bytes chunkOff) st
  (m32 (st.1 + r.1), m32 (st.2.1 + r.2.1), m32 (st.2.2.1 + r.2.2.1),
   m32 (st.2.2.2 + r.2.2.2))

/-- MD5 padding: `0x80`, zeros to 56 mod 64, then the 64-bit little-endian
bit length. -/
def md5Pad (msg : List Nat) : List Nat :=
  let len := msg.length
  let zeros := (120 - (len + 1) % 64) % 64
  let bitLen := 8 * len
  msg ++ 128 :: List.replicate zeros 0 ++
    [bitLen % 256, bitLen / 256 % 256, bitLen / 65536 % 256,
     bitLen / 16777216 % 256, bitLen / 4294967296 % 256,
     bitLen / 1099511627776 % 256, bitLen / 281474976710656 % 256,
     bitLen / 72057594037927936 % 256]

/-- MD5 state after processing the whole padded message (the four 32-bit
words `A, B, C, D`). -/
def md5Words (msg : List Nat) : Nat × Nat × Nat × Nat :=
  let padded := md5Pad msg
  (List.range (padded.length / 64)).foldl (fun st k => md5Chunk padded (64 * k) st)
    (1732584193, 4023233417, 2562383102, 271733878)

/-- Little-endian bytes of one 32-bit word. -/
def wordBytesLE (w : Nat) : List Nat :=
  [w % 256, w / 256 % 256, w / 65536 % 256, w / 16777216 % 256]

/-- Digest serialisation of the final MD5 state. -/
def wordsToBytes (w : Nat × Nat × Nat × Nat) : List Nat :=
  wordBytesLE w.1 ++ wordBytesLE w.2.1 ++ wordBytesLE w.2.2.1 ++ wordBytesLE w.2.2.2

/-- The 16 MD5 digest bytes of a message. -/
def md5DigestBytes (msg : List Nat) : List Nat := wordsToBytes (md5Words msg)

/-- Lowercase hex characters of a byte list (Python `hexdigest()`). -/
def bytesToHex : List Nat → List Char
  | [] => []
  | b :: rest => Nat.digitChar (b / 16 % 16) :: Nat.digitChar (b % 16) :: bytesToHex rest

/-- Characters of `hashlib.md5(msg).hexdigest()`. -/
def md5HexChars (msg : List Nat) : List Char := bytesToHex (md5DigestBytes msg)

/-- Python `hashlib.md5(msg).hexdigest()`. -/
def hexdigest (msg : List Nat) : String := String.mk (md5HexChars msg)

/-- Four lowercase hex digits (for `\u` escapes). -/
def hex4 (n : Nat) : String :=
  String.mk [Nat.digitChar (n / 4096 % 16), Nat.digitChar (n / 256 % 16),
    Nat.digitChar (n / 16 % 16), Nat.digitChar (n % 16)]

/-- JSON escaping of one character as `json.dumps` renders it with its
default `ensure_ascii=True`: the two mandatory escapes, the short control
escapes, `\u00XX` for remaining control characters, ASCII verbatim, and
`\uXXXX` (with surrogate pairs beyond the BMP) for everything non-ASCII. -/
def jsonEscapeChar (c : Char) : String :=
  if c = '"' then "\\\""
  else if c = '\\' then "\\\\"
  else if c = '\n' then "\\n"
  else if c = '\r' then "\\r"
  else if c = '\t' then "\\t"
  else if c = '\x08' then "\\b"
  else if c = '\x0c' then "\\f"
  else if c.toNat < 32 then "\\u" ++ hex4 c.toNat
  else if c.toNat < 128 then String.mk [c]
  else if c.toNat < 65536 then "\\u" ++ hex4 c.toNat
  else
    "\\u" ++ hex4 (55296 + (c.toNat - 65536) / 1024) ++
      "\\u" ++ hex4 (56320 + (c.toNat - 65536) % 1024)

/-- Concatenation of rendered fragments. -/
def strConcat : List String → String
  | [] => ""
  | s :: rest => s ++ strConcat rest

/-- JSON string literal as `json.dumps` renders it. -/
def jsonQuote (s : String) : String :=
  "\"" ++ strConcat (s.toList.map jsonEscapeChar) ++ "\""

/-- Decimal digits of a positive number, most significant first (the fuel
argument only bounds the recursion; `fuel = n` always suffices). -/
def natDecAux : Nat → Nat → List Char
  | 0, _ => []
  | fuel + 1, n =>
    if n = 0 then [] else natDecAux fuel (n / 10) ++ [Nat.digitChar (n % 10)]

/-- Decimal rendering of a natural number. -/
def natDec (n : Nat) : String :=
  if n = 0 then "0" else String.mk (natDecAux n n)

/-- Decimal rendering of an integer as `json.dumps` renders it. -/
def intDec (n : Int) : String :=
  if n < 0 then "-" ++ natDec n.natAbs else natDec n.natAbs

/-- Comma-space joining, `json.dumps`'s default item separator. -/
def joinComma : List String → String
  | [] => ""
  | [x] => x
  | x :: rest => x ++ ", " ++ joinComma rest

/-- Object entries sorted by raw key in code-point order (`sort_keys=True`);
rendering before sorting is sound because each entry renders independently,
and Python dict keys are unique so stability never matters. -/
def sortPairsByKey (l : List (String × String)) : List (String × String) :=
  sortStable
    (fun a b => charListLT a.1.toList b.1.toList || decide (a.1.toList = b.1.toList)) l

mutual
/-- Embedding of `json.dumps(v, sort_keys=True, default=str)` with its
default separators `(", ", ": ")`: canonical JSON with object keys sorted.
(`default=str` only affects non-JSON values, which `JVal` cannot hold.) -/
def canonicalJson : JVal → String
  | .str s => jsonQuote s
  | .num n => intDec n
  | .bool b => if b then "true" else "false"
  | .null => "null"
  | .arr elems => "[" ++ joinComma (canonArr elems) ++ "]"
  | .obj entries =>
      "\x7b" ++ joinComma ((sortPairsByKey (canonObjPairs entries)).map Prod.snd)
        ++ "\x7d"

/-- Renderings of the elements of a JSON array. -/
def canonArr : List JVal → List String
  | [] => []
  | v :: rest => canonicalJson v :: canonArr rest

/-- Keyed renderings of the entries of a JSON object. -/
def canonObjPairs : List (String × JVal) → List (String × String)
  | [] => []
  | (k, v) :: rest =>
      (k, jsonQuote k ++ ": " ++ canonicalJson v) :: canonObjPairs rest
end

/-- Embedding of `CacheManager._generate_cache_key` (manager.py:59-71) for a
dict argument: the stable string is the canonical JSON, and the key is the
prefix (e.g. `"search:"`) followed by the FIRST 16 hex characters of the MD5
digest (`hexdigest()[:16]`). -/
def _generate_cache_key (pfx : String) (params : List (String × JVal)) : String :=
  let stable_str := canonicalJson (.obj params)
  let hash_digest := String.mk ((md5HexChars (utf8Encode stable_str)).take 16)
  pfx ++ hash_digest

/-- Cache key exactly as the specification words it: `<ns>:<hex(md5(
canonicalJson(X)))>`, i.e. the namespace, a colon and the FULL 32-character
hex digest. Named after the spec, for comparison with the code's
`_generate_cache_key`. -/
def specCacheKey (ns : String) (params : List (String × JVal)) : String :=
  ns ++ ":" ++ hexdigest (utf8Encode (canonicalJson (.obj params)))

/-! ## Theorems -/

/-- Sanity example: default retryable predicate agrees with spec wording. -/
theorem should_retry_matches_spec (e : Exc) :
    should_retry_exception e get_default_retry_config = spec_retryable e := by
  cases e with
  | net => rfl
  | other => rfl
  | http s =>
    simp only [should_retry_exception, spec_retryable, get_default_retry_config]
    by_cases hd : s ∈ [400, 401, 403, 404]
    · have hr : s ∉ [500, 502, 503, 504, 429] := by
        simp only [List.mem_cons, List.not_mem_nil, or_false] at hd ⊢
        omega
      simp [hd, hr]
    · by_cases hr : s ∈ [500, 502, 503, 504, 429] <;> simp [hd, hr]

/-- Unfolding lemma: a successful attempt ends the loop. -/
theorem retryGo_ok (cfg : RetryConfig) (f : Nat → Outcome α) {i : Nat} {v : α}
    (h : f i = Outcome.ok v) :
    ∀ fuel, retryGo cfg f fuel i = (.success v, i) := by
  intro fuel
  cases fuel <;> simp [retryGo, h]

/-- Unfolding lemma: a non-retryable failure re-raises at once. -/
theorem retryGo_noRetry (cfg : RetryConfig) (f : Nat → Outcome α) {i : Nat} {e : Exc}
    (h : f i = Outcome.exc e) (hr : should_retry_exception e cfg = false) :
    ∀ fuel, retryGo cfg f fuel i = (.raised e, i) := by
  intro fuel
  cases fuel <;> simp [retryGo, h, hr]

/-- Unfolding lemma: a retryable failure with no fuel left is `RetryError`. -/
theorem retryGo_exhausted (cfg : RetryConfig) (f : Nat → Outcome α) {i : Nat} {e : Exc}
    (h : f i = Outcome.exc e) (hr : should_retry_exception e cfg = true) :
    retryGo cfg f 0 i = (.retryError e, i) := by
  simp [retryGo, h, hr]

/-- Unfolding lemma: a retryable failure with fuel left loops. -/
theorem retryGo_retry (cfg : RetryConfig) (f : Nat → Outcome α) {i : Nat} {e : Exc}
    (h : f i = Outcome.exc e) (hr : should_retry_exception e cfg = true)
    (fuel : Nat) :
    retryGo cfg f (fuel + 1) i = retryGo cfg f fuel (i + 1) := by
  simp [retryGo, h, hr]

/-- Complete characterisation of the retry loop: attempts stay within the
fuel budget, the final attempt explains the result, and every attempt before
the final one failed with a retryable exception. -/
theorem retryGo_spec (cfg : RetryConfig) (f : Nat → Outcome α) :
    ∀ (fuel i : Nat),
      i ≤ (retryGo cfg f fuel i).2 ∧
      (retryGo cfg f fuel i).2 ≤ i + fuel ∧
      (∀ e, (retryGo cfg f fuel i).1 = RetryResult.raised e →
          f (retryGo cfg f fuel i).2 = Outcome.exc e ∧
            should_retry_exception e cfg = false) ∧
      (∀ e, (retryGo cfg f fuel i).1 = RetryResult.retryError e →
          (retryGo cfg f fuel i).2 = i + fuel ∧
            f (retryGo cfg f fuel i).2 = Outcome.exc e ∧
            should_retry_exception e cfg = true) ∧
      (∀ v, (retryGo cfg f fuel i).1 = RetryResult.success v →
          f (retryGo cfg f fuel i).2 = Outcome.ok v) ∧
      (∀ j, i ≤ j → j < (retryGo cfg f fuel i).2 →
          ∃ e, f j = Outcome.exc e ∧ should_retry_exception e cfg = true) := by
  intro fuel
  induction fuel with
  | zero =>
    intro i
    cases hfi : f i with
    | ok v =>
      rw [retryGo_ok cfg f hfi]
      refine ⟨le_refl _, by omega, by intro e h; simp at h, by intro e h; simp at h,
        ?_, by intro j h1 h2; omega⟩
      intro v' hv
      simp only [RetryResult.success.injEq] at hv
      simp [hfi, hv]
    | exc e =>
      cases hr : should_retry_exception e cfg with
      | false =>
        rw [retryGo_noRetry cfg f hfi hr]
        refine ⟨le_refl _, by omega, ?_, by intro e' h; simp at h,
          by intro v h; simp at h, by intro j h1 h2; omega⟩
        intro e' he
        simp only [RetryResult.raised.injEq] at he
        subst he
        exact ⟨hfi, hr⟩
      | true =>
        rw [retryGo_exhausted cfg f hfi hr]
        refine ⟨le_refl _, by omega, by intro e' h; simp at h, ?_,
          by intro v h; simp at h, by intro j h1 h2; omega⟩
        intro e' he
        simp only [RetryResult.retryError.injEq] at he
        subst he
        exact ⟨by omega, hfi, hr⟩
  | succ fuel ih =>
    intro i
    cases hfi : f i with
    | ok v =>
      rw [retryGo_ok cfg f hfi]
      refine ⟨le_refl _, by omega, by intro e h; simp at h, by intro e h; simp at h,
        ?_, by intro j h1 h2; omega⟩
      intro v' hv
      simp only [RetryResult.success.injEq] at hv
      simp [hfi, hv]
    | exc e =>
      cases hr : should_retry_exception e cfg with
      | false =>
        rw [retryGo_noRetry cfg f hfi hr]
        refine ⟨le_refl _, by omega, ?_, by intro e' h; simp at h,
          by intro v h; simp at h, by intro j h1 h2; omega⟩
        intro e' he
        simp only [RetryResult.raised.injEq] at he
        subst he
        exact ⟨hfi, hr⟩
      | true =>
        rw [retryGo_retry cfg f hfi hr]
        obtain ⟨ha, hb, hc, hd, he, hf⟩ := ih (i + 1)
        refine ⟨by omega, by omega, hc, ?_, he, ?_⟩
        · intro e' h
          obtain ⟨h1, h2, h3⟩ := hd e' h
          exact ⟨by omega, h2, h3⟩
        · intro j h1 h2
          rcases Nat.eq_or_lt_of_le h1 with h | h
          · subst h
            exact ⟨e, hfi, hr⟩
          · exact hf j h h2

/-- C6: with the default configuration, a failed attempt is retried iff the
error is a connection/timeout error or an HTTP error with status in
{500, 502, 503, 504, 429} and not in {400, 401, 403, 404}; a non-retryable
error is re-raised with no further attempts, and at most 3 attempts are made. -/
theorem retry_default_policy (f : Nat → Outcome α) :
    (∀ e, should_retry_exception e get_default_retry_config = spec_retryable e) ∧
    1 ≤ (retry_with_backoff get_default_retry_config f).2 ∧
    (retry_with_backoff get_default_retry_config f).2 ≤ 3 ∧
    (∀ e, (retry_with_backoff get_default_retry_config f).1 = RetryResult.raised e →
        f (retry_with_backoff get_default_retry_config f).2 = Outcome.exc e ∧
          spec_retryable e = false) ∧
    (∀ e, (retry_with_backoff get_default_retry_config f).1 = RetryResult.retryError e →
        (retry_with_backoff get_default_retry_config f).2 = 3 ∧
          f 3 = Outcome.exc e ∧ spec_retryable e = true) ∧
    (∀ v, (retry_with_backoff get_default_retry_config f).1 = RetryResult.success v →
        f (retry_with_backoff get_default_retry_config f).2 = Outcome.ok v) ∧
    (∀ j, 1 ≤ j → j < (retry_with_backoff get_default_retry_config f).2 →
        ∃ e, f j = Outcome.exc e ∧ spec_retryable e = true) := by
  obtain ⟨ha, hb, hc, hd, he, hf⟩ := retryGo_spec get_default_retry_config f 2 1
  have hrw : retry_with_backoff get_default_retry_config f =
      retryGo get_default_retry_config f 2 1 := rfl
  rw [hrw]
  refine ⟨should_retry_matches_spec, ha, by omega, ?_, ?_, he, ?_⟩
  · intro e h
    obtain ⟨h1, h2⟩ := hc e h
    exact ⟨h1, by rw [← should_retry_matches_spec]; exact h2⟩
  · intro e h
    obtain ⟨h1, h2, h3⟩ := hd e h
    have h13 : (retryGo get_default_retry_config f 2 1).2 = 3 := by omega
    rw [h13] at h2
    exact ⟨h13, h2, by rw [← should_retry_matches_spec]; exact h3⟩
  · intro j h1 h2
    obtain ⟨e, he1, he2⟩ := hf j h1 h2
    exact ⟨e, he1, by rw [← should_retry_matches_spec]; exact he2⟩

/-- Witness for `retry_default_policy`: a call always failing with a
retryable 503 makes exactly 3 attempts and the last error is the 503. -/
theorem retry_default_policy_witness :
    (retry_with_backoff get_default_retry_config
        (fun _ => (Outcome.exc (Exc.http 503) : Outcome Unit))).2 = 3 ∧
    (fun _ => (Outcome.exc (Exc.http 503) : Outcome Unit)) 3 =
      Outcome.exc (Exc.http 503) ∧
    spec_retryable (Exc.http 503) = true :=
  (retry_default_policy (fun _ => (Outcome.exc (Exc.http 503) : Outcome Unit))).2.2.2.2.1
    (Exc.http 503) (by decide)

/-- C2: a call in the `open` state is rejected without invoking the protected
function while less than `recovery_timeout` has elapsed since the last
failure; once it has elapsed the next call transitions to `half_open` and is
not rejected; with threshold 3, four consecutive expected failures re-raise
three times and the fourth call is rejected without the function running. -/
theorem circuit_open_gate :
    (∀ (cb : CircuitBreaker) (now t : Nat) (f : FuncBehavior),
        cb.state = .OPEN → cb.last_failure_time = some t → t ≤ now →
        now - t < cb.recovery_timeout →
        cb.call now f = (.rejectedOpen, cb, false)) ∧
    (∀ (cb : CircuitBreaker) (now t : Nat) (f : FuncBehavior),
        cb.state = .OPEN → cb.last_failure_time = some t →
        cb.recovery_timeout ≤ now - t → 0 < cb.half_open_max_calls →
        (cb.call now f).1 ≠ .rejectedOpen ∧ (cb.call now f).2.2 = true) ∧
    (let cb0 : CircuitBreaker := ⟨3, 60, 3, .CLOSED, 0, none, 0, 0⟩
     let r1 := cb0.call 0 .raiseExpected
     let r2 := r1.2.1.call 0 .raiseExpected
     let r3 := r2.2.1.call 0 .raiseExpected
     let r4 := r3.2.1.call 0 .raiseExpected
     r1.1 = .expectedRaise ∧ r1.2.2 = true ∧
     r2.1 = .expectedRaise ∧ r2.2.2 = true ∧
     r3.1 = .expectedRaise ∧ r3.2.2 = true ∧ r3.2.1.state = .OPEN ∧
     r4.1 = .rejectedOpen ∧ r4.2.2 = false) := by
  refine ⟨?_, ?_, by decide⟩
  · intro cb now t f hstate hlast hle hlt
    have hrec : cb.shouldAttemptRecovery now = false := by
      simp only [CircuitBreaker.shouldAttemptRecovery, hlast, decide_eq_false_iff_not]
      omega
    simp [CircuitBreaker.call, hstate, hrec]
  · intro cb now t f hstate hlast hge hmax
    have hrec : cb.shouldAttemptRecovery now = true := by
      simp only [CircuitBreaker.shouldAttemptRecovery, hlast, decide_eq_true_eq]
      omega
    have hnot : ¬ cb.half_open_max_calls ≤ 0 := by omega
    cases f <;>
      simp [CircuitBreaker.call, hstate, hrec, hnot, CircuitBreaker.runFunc]

/-- Witness for `circuit_open_gate`: an open breaker whose last failure was at
time 0 rejects a call at time 30 (timeout 60), and admits one at time 60. -/
theorem circuit_open_gate_witness :
    ((⟨3, 60, 3, .OPEN, 3, some 0, 0, 0⟩ : CircuitBreaker).call 30 .ok
      = (.rejectedOpen, ⟨3, 60, 3, .OPEN, 3, some 0, 0, 0⟩, false)) ∧
    ((⟨3, 60, 3, .OPEN, 3, some 0, 0, 0⟩ : CircuitBreaker).call 60 .ok).1
        ≠ .rejectedOpen ∧
    ((⟨3, 60, 3, .OPEN, 3, some 0, 0, 0⟩ : CircuitBreaker).call 60 .ok).2.2 = true :=
  ⟨circuit_open_gate.1 ⟨3, 60, 3, .OPEN, 3, some 0, 0, 0⟩ 30 0 .ok rfl rfl
      (by decide) (by decide),
   circuit_open_gate.2.1 ⟨3, 60, 3, .OPEN, 3, some 0, 0, 0⟩ 60 0 .ok rfl rfl
      (by decide) (by decide)⟩

/-- Helper: a token that `is_expired` rejects at `now` is fresh at `now`. -/
theorem Token.fresh_of_not_expired {tok : Token} {now : ℚ}
    (h : tok.is_expired now = false) : tok.fresh now := by
  unfold Token.fresh
  unfold Token.is_expired at h
  cases he : tok.expires_at with
  | none => simp
  | some t =>
    rw [he] at h
    simp only [decide_eq_false_iff_not, not_le] at h
    simpa using h

/-- C9 counterexample: a cached token half a second before its expiry is
within the 300-second skew window and not expired, yet `get_token` returns
its value without attempting any refresh, because
`int(delta.total_seconds())` truncates to `0`, which is falsy in the
condition `self._token.expires_in_seconds and ... < 300`. -/
theorem get_token_skew_window_no_refresh :
    (Token.is_expired ⟨"cached", some (1 / 2)⟩ 0 = false) ∧
    ((1 : ℚ) / 2 - 0 ≤ 300) ∧
    AuthClient.get_token (some ⟨"cached", some (1 / 2)⟩) 0 ⟨"auth", none⟩
        (some ⟨"refreshed", none⟩)
      = ("cached", some ⟨"cached", some (1 / 2)⟩, false) := by
  have hexp : Token.is_expired ⟨"cached", some (1 / 2)⟩ 0 = false := by
    simp only [Token.is_expired, decide_eq_false_iff_not, not_le]
    norm_num
  have hfloor : ⌊(1 : ℚ) / 2 - 0⌋ = 0 := by
    rw [Int.floor_eq_iff]
    norm_num
  have hins : Token.expires_in_seconds ⟨"cached", some (1 / 2)⟩ 0 = some 0 := by
    simp only [Token.expires_in_seconds]
    rw [if_pos (by norm_num), hfloor]
  refine ⟨hexp, by norm_num, ?_⟩
  simp only [AuthClient.get_token, hexp, hins]
  norm_num

/-- C9 amended: every `get_token` call returns the value of a token that is
either fresh (expiry strictly after `now`; a token with no recorded expiry
never expires) or for which a refresh/re-authentication was attempted in the
same call; an expired cached token always triggers a refresh attempt, and a
cached token whose truncated whole-seconds-to-expiry is nonzero and below
300 triggers the proactive refresh. (A token expiring in under one second
truncates to 0 and skips the proactive refresh, but is still fresh.) -/
theorem get_token_fresh_or_refresh (token : Option Token) (now : ℚ)
    (authRes : Token) (refreshRes : Option Token) :
    (∃ tok, (AuthClient.get_token token now authRes refreshRes).2.1 = some tok ∧
        (AuthClient.get_token token now authRes refreshRes).1 = tok.value ∧
        (tok.fresh now ∨
          (AuthClient.get_token token now authRes refreshRes).2.2 = true)) ∧
    (∀ tok, token = some tok → tok.is_expired now = true →
        (AuthClient.get_token token now authRes refreshRes).2.2 = true) ∧
    (∀ tok n, token = some tok → tok.expires_in_seconds now = some n →
        n ≠ 0 → n < 300 →
        (AuthClient.get_token token now authRes refreshRes).2.2 = true) := by
  cases token with
  | none =>
    refine ⟨⟨authRes, by simp [AuthClient.get_token], by simp [AuthClient.get_token], ?_⟩,
      by intro tok h; simp at h, by intro tok n h; simp at h⟩
    right
    simp [AuthClient.get_token]
  | some tok =>
    by_cases hexp : tok.is_expired now = true
    · have hval : (AuthClient.get_token (some tok) now authRes refreshRes).2.2 = true := by
        cases refreshRes <;> simp [AuthClient.get_token, hexp]
      refine ⟨?_, fun _ _ _ => hval, fun _ _ _ _ _ _ => hval⟩
      cases hr : refreshRes with
      | none =>
        exact ⟨authRes, by simp [AuthClient.get_token, hexp, hr], by
          simp [AuthClient.get_token, hexp, hr], Or.inr (by rw [← hr]; exact hval)⟩
      | some t =>
        exact ⟨t, by simp [AuthClient.get_token, hexp, hr], by
          simp [AuthClient.get_token, hexp, hr], Or.inr (by rw [← hr]; exact hval)⟩
    · have hexp' : tok.is_expired now = false := by
        simpa using hexp
      have hfresh := Token.fresh_of_not_expired hexp'
      cases hn : tok.expires_in_seconds now with
      | none =>
        refine ⟨⟨tok, by simp [AuthClient.get_token, hexp', hn],
            by simp [AuthClient.get_token, hexp', hn], Or.inl hfresh⟩, ?_, ?_⟩
        · intro tok' h hx
          obtain rfl : tok' = tok := by simpa using h.symm
          rw [hexp'] at hx
          exact absurd hx (by simp)
        · intro tok' n h hins
          obtain rfl : tok' = tok := by simpa using h.symm
          rw [hn] at hins
          exact absurd hins (by simp)
      | some n =>
        by_cases hcond : n ≠ 0 ∧ n < 300
        · have hval : (AuthClient.get_token (some tok) now authRes refreshRes).2.2
              = true := by
            cases refreshRes <;> simp [AuthClient.get_token, hexp', hn, hcond]
          refine ⟨?_, fun _ _ _ => hval, fun _ _ _ _ _ _ => hval⟩
          cases hr : refreshRes with
          | none =>
            exact ⟨tok, by simp [AuthClient.get_token, hexp', hn, hcond, hr], by
              simp [AuthClient.get_token, hexp', hn, hcond, hr],
              Or.inr (by rw [← hr]; exact hval)⟩
          | some t =>
            exact ⟨t, by simp [AuthClient.get_token, hexp', hn, hcond, hr], by
              simp [AuthClient.get_token, hexp', hn, hcond, hr],
              Or.inr (by rw [← hr]; exact hval)⟩
        · refine ⟨⟨tok, by simp [AuthClient.get_token, hexp', hn, hcond],
              by simp [AuthClient.get_token, hexp', hn, hcond], Or.inl hfresh⟩, ?_, ?_⟩
          · intro tok' h hx
            obtain rfl : tok' = tok := by simpa using h.symm
            rw [hexp'] at hx
            exact absurd hx (by simp)
          · intro tok' n' h hins hne hlt
            obtain rfl : tok' = tok := by simpa using h.symm
            rw [hn] at hins
            obtain rfl : n' = n := by simpa using hins.symm
            exact absurd ⟨hne, hlt⟩ hcond

/-- Witness for `get_token_fresh_or_refresh`: an expired cached token
(expiry 0, now 10) triggers a refresh attempt. -/
theorem get_token_fresh_or_refresh_witness :
    (AuthClient.get_token (some ⟨"old", some 0⟩) 10 ⟨"auth", none⟩
        (some ⟨"new", none⟩)).2.2 = true :=
  (get_token_fresh_or_refresh (some ⟨"old", some 0⟩) 10 ⟨"auth", none⟩
      (some ⟨"new", none⟩)).2.1 ⟨"old", some 0⟩ rfl
    (by simp only [Token.is_expired, decide_eq_true_eq]; norm_num)

/-- C1 counterexample: a load into a table holding `[0]` from a file holding
`[1, 2]` that fails at the staging `COUNT(*)` leaves the table intact but
leaves `entities_staging` behind: the handler only calls `rollback()`, and
the staging table was created by an already-committed statement. -/
theorem load_parquet_staging_survives_failure :
    _load_parquet_sync [1, 2] (some .countRows)
        (⟨some [0], none, none, none⟩ : DuckDBState Nat)
      = .error ⟨some [0], some [1, 2], none, none⟩ ∧
    (⟨some [0], some [1, 2], none, none⟩ : DuckDBState Nat).staging ≠ none := by
  exact ⟨rfl, by simp⟩

/-- C1 amended: a successful load fully replaces the table with the staged
rows and returns the staging row count (and clears staging); a failed load
leaves the table holding its previous rows unless the failure struck the
metadata upsert, which runs after the swap transaction has committed — in
that case the table already holds the new rows; in either failure case the
`<table>_staging` table is not guaranteed to be removed. -/
theorem load_parquet_guarantees {ρ : Type} (db : DuckDBState ρ)
    (R fileRows : List ρ) (failAt : Option LoadStep) (hmain : db.main = some R) :
    (∀ db' n, _load_parquet_sync fileRows failAt db = .ok (db', n) →
        db'.main = some fileRows ∧ n = fileRows.length ∧ db'.staging = none) ∧
    (∀ db', _load_parquet_sync fileRows failAt db = .error db' →
        (failAt = some .insertMeta ∧ db'.main = some fileRows) ∨
        db'.main = some R) := by
  unfold _load_parquet_sync
  rcases failAt with _ | step
  · constructor
    · intro db' n h
      simp only [reduceCtorEq, if_false, hmain, Option.some.injEq] at h
      simp only [Except.ok.injEq, Prod.mk.injEq] at h
      obtain ⟨rfl, rfl⟩ := h
      exact ⟨rfl, rfl, rfl⟩
    · intro db' h
      simp [hmain] at h
  · cases step <;> refine ⟨fun db' n h => ?_, fun db' h => ?_⟩
    all_goals try simp [hmain] at h
    all_goals try subst h
    all_goals simp_all

/-- Witness for `load_parquet_guarantees`: the clean run on a table holding
`[0]` with file rows `[1, 2]` replaces the table and returns count 2. -/
theorem load_parquet_guarantees_witness :
    (⟨some [1, 2], none, some [0], some 2⟩ : DuckDBState Nat).main = some [1, 2] ∧
    (2 : Nat) = ([1, 2] : List Nat).length ∧
    (⟨some [1, 2], none, some [0], some 2⟩ : DuckDBState Nat).staging = none :=
  (load_parquet_guarantees (⟨some [0], none, none, none⟩ : DuckDBState Nat)
      [0] [1, 2] none rfl).1 ⟨some [1, 2], none, some [0], some 2⟩ 2 rfl

/-- Helper: a logged admitted call served by window `s` adds one to its
admit count. -/
theorem countAdmitsTagged_cons_hit (e : Nat × Bool × Nat)
    (l : List (Nat × Bool × Nat)) (s : Nat) (hb : e.2.1 = true) (hw : e.2.2 = s) :
    countAdmitsTagged (e :: l) s = 1 + countAdmitsTagged l s := by
  unfold countAdmitsTagged
  rw [List.filter_cons]
  simp [hb, hw, Nat.add_comm]

/-- Helper: a denied call adds nothing to any admit count. -/
theorem countAdmitsTagged_cons_denied (e : Nat × Bool × Nat)
    (l : List (Nat × Bool × Nat)) (s : Nat) (hb : e.2.1 = false) :
    countAdmitsTagged (e :: l) s = countAdmitsTagged l s := by
  unfold countAdmitsTagged
  rw [List.filter_cons]
  simp [hb]

/-- Helper: a call served by a different window adds nothing to the count. -/
theorem countAdmitsTagged_cons_ne (e : Nat × Bool × Nat)
    (l : List (Nat × Bool × Nat)) (s : Nat) (hw : e.2.2 ≠ s) :
    countAdmitsTagged (e :: l) s = countAdmitsTagged l s := by
  unfold countAdmitsTagged
  rw [List.filter_cons]
  have h' : (e.2.2 == s) = false := by simpa using hw
  simp [h']

/-- Helper: no admits are counted for a window start below every logged tag. -/
theorem countAdmitsTagged_zero {l : List (Nat × Bool × Nat)} {s bound : Nat}
    (hlt : s < bound) (h : ∀ e ∈ l, bound ≤ e.2.2) :
    countAdmitsTagged l s = 0 := by
  induction l with
  | nil => rfl
  | cons e l ih =>
    have he := h e (List.mem_cons_self e l)
    rw [countAdmitsTagged_cons_ne e l s (by omega)]
    exact ih fun e' he' => h e' (List.mem_cons_of_mem e he')

/-- Helper: the current window admit count at its own start. -/
theorem rlCur_self (c s0 : Nat) : rlCur (some (c, s0)) s0 = c := by
  simp [rlCur]

/-- Helper: the current window admit count at any other start. -/
theorem rlCur_other {s s0 : Nat} (h : ¬ s = s0) (c : Nat) :
    rlCur (some (c, s0)) s = 0 := by
  simp [rlCur, h]

/-- Helper: the admit count of an absent key. -/
theorem rlCur_none (s : Nat) : rlCur none s = 0 := rfl

/-- Invariant of the rate-limit loop: a live counter `(c, s0)` equals the
number of admits already granted to the fixed window starting at `s0`; each
fixed window grants at most `limit` admits; every future window start is at
least the current one; and every logged call falls inside the fixed window
that served it. -/
theorem rlRun_invariant (limit window : Nat) (hl : 1 ≤ limit) (hw : 1 ≤ window) :
    ∀ (ts : List Nat) (st : Option (Nat × Nat)),
      (∀ c s0, st = some (c, s0) → c ≤ limit ∧ ∀ t ∈ ts, s0 ≤ t) →
      ts.Pairwise (· ≤ ·) →
      (∀ s, countAdmitsTagged (rlRun limit window st ts).1 s ≤
          limit - rlCur st s) ∧
      (∀ c s0, st = some (c, s0) →
          ∀ e ∈ (rlRun limit window st ts).1, s0 ≤ e.2.2) ∧
      (∀ e ∈ (rlRun limit window st ts).1, e.2.2 ≤ e.1 ∧ e.1 < e.2.2 + window) := by
  intro ts
  induction ts with
  | nil =>
    intro st hpre hmono
    refine ⟨fun s => ?_, fun c s0 h e he => ?_, fun e he => ?_⟩
    · simp only [rlRun, countAdmitsTagged, List.filter_nil, List.length_nil]
      exact Nat.zero_le _
    · simp [rlRun] at he
    · simp [rlRun] at he
  | cons t ts ih =>
    intro st hpre hmono
    obtain ⟨hrel, hmono'⟩ := List.pairwise_cons.mp hmono
    cases st with
    | none =>
      have hpre' : ∀ c s0, (some (1, t) : Option (Nat × Nat)) = some (c, s0) →
          c ≤ limit ∧ ∀ t' ∈ ts, s0 ≤ t' := by
        intro c s0 h
        simp only [Option.some.injEq, Prod.mk.injEq] at h
        obtain ⟨rfl, rfl⟩ := h
        exact ⟨hl, hrel⟩
      obtain ⟨ihA, ihB, ihC⟩ := ih (some (1, t)) hpre' hmono'
      simp only [rlRun, check_rate_limit, rlTag]
      refine ⟨fun s => ?_, fun c s0 h => ?_, fun e he => ?_⟩
      · by_cases hs : s = t
        · subst hs
          rw [countAdmitsTagged_cons_hit _ _ s rfl rfl, rlCur_none]
          have hbound := ihA s
          rw [rlCur_self] at hbound
          omega
        · rw [countAdmitsTagged_cons_ne _ _ s (fun hc => hs hc.symm), rlCur_none]
          have hbound := ihA s
          rw [rlCur_other hs] at hbound
          omega
      · simp at h
      · rcases List.mem_cons.mp he with rfl | he'
        · exact ⟨le_refl t, show t < t + window by omega⟩
        · exact ihC e he'
    | some p =>
      obtain ⟨c, s0⟩ := p
      obtain ⟨hc, hts⟩ := hpre c s0 rfl
      have hs0t : s0 ≤ t := hts t (List.mem_cons_self t ts)
      have htail : ∀ t' ∈ ts, s0 ≤ t' := fun t' ht' => hts t' (List.mem_cons_of_mem t ht')
      by_cases halive : t < s0 + window
      · by_cases hdeny : limit ≤ c
        · -- live window, counter at the ceiling: deny, state unchanged
          have hpre' : ∀ c' s0', (some (c, s0) : Option (Nat × Nat)) = some (c', s0') →
              c' ≤ limit ∧ ∀ t' ∈ ts, s0' ≤ t' := by
            intro c' s0' h
            simp only [Option.some.injEq, Prod.mk.injEq] at h
            obtain ⟨rfl, rfl⟩ := h
            exact ⟨hc, htail⟩
          obtain ⟨ihA, ihB, ihC⟩ := ih (some (c, s0)) hpre' hmono'
          simp only [rlRun, check_rate_limit, if_pos halive, if_pos hdeny, rlTag]
          refine ⟨fun s => ?_, fun c' s0' h => ?_, fun e he => ?_⟩
          · rw [countAdmitsTagged_cons_denied _ _ s rfl]
            exact ihA s
          · simp only [Option.some.injEq, Prod.mk.injEq] at h
            obtain ⟨rfl, rfl⟩ := h
            intro e he
            rcases List.mem_cons.mp he with rfl | he'
            · exact le_refl s0
            · exact ihB c s0 rfl e he'
          · rcases List.mem_cons.mp he with rfl | he'
            · exact ⟨hs0t, halive⟩
            · exact ihC e he'
        · -- live window, below the ceiling: increment and admit
          have hclt : c < limit := by omega
          have hpre' : ∀ c' s0', (some (c + 1, s0) : Option (Nat × Nat)) = some (c', s0') →
              c' ≤ limit ∧ ∀ t' ∈ ts, s0' ≤ t' := by
            intro c' s0' h
            simp only [Option.some.injEq, Prod.mk.injEq] at h
            obtain ⟨rfl, rfl⟩ := h
            exact ⟨by omega, htail⟩
          obtain ⟨ihA, ihB, ihC⟩ := ih (some (c + 1, s0)) hpre' hmono'
          simp only [rlRun, check_rate_limit, if_pos halive, if_neg hdeny, rlTag]
          refine ⟨fun s => ?_, fun c' s0' h => ?_, fun e he => ?_⟩
          · by_cases hs : s = s0
            · subst hs
              rw [countAdmitsTagged_cons_hit _ _ s rfl rfl, rlCur_self]
              have hbound := ihA s
              rw [rlCur_self] at hbound
              omega
            · rw [countAdmitsTagged_cons_ne _ _ s (fun hc' => hs hc'.symm),
                rlCur_other hs]
              have hbound := ihA s
              rw [rlCur_other hs] at hbound
              omega
          · simp only [Option.some.injEq, Prod.mk.injEq] at h
            obtain ⟨rfl, rfl⟩ := h
            intro e he
            rcases List.mem_cons.mp he with rfl | he'
            · exact le_refl s0
            · exact ihB (c + 1) s0 rfl e he'
          · rcases List.mem_cons.mp he with rfl | he'
            · exact ⟨hs0t, halive⟩
            · exact ihC e he'
      · -- key expired: a new fixed window starts at t
        have hexp : s0 + window ≤ t := by omega
        have hs0lt : s0 < t := by omega
        have hpre' : ∀ c' s0', (some (1, t) : Option (Nat × Nat)) = some (c', s0') →
            c' ≤ limit ∧ ∀ t' ∈ ts, s0' ≤ t' := by
          intro c' s0' h
          simp only [Option.some.injEq, Prod.mk.injEq] at h
          obtain ⟨rfl, rfl⟩ := h
          exact ⟨hl, hrel⟩
        obtain ⟨ihA, ihB, ihC⟩ := ih (some (1, t)) hpre' hmono'
        simp only [rlRun, check_rate_limit, if_neg halive, rlTag]
        refine ⟨fun s => ?_, fun c' s0' h => ?_, fun e he => ?_⟩
        · by_cases hst : s = t
          · subst hst
            rw [countAdmitsTagged_cons_hit _ _ s rfl rfl,
              rlCur_other (show ¬ s = s0 by omega)]
            have hbound := ihA s
            rw [rlCur_self] at hbound
            omega
          · rw [countAdmitsTagged_cons_ne _ _ s (fun hc' => hst hc'.symm)]
            by_cases hss0 : s = s0
            · subst hss0
              rw [countAdmitsTagged_zero hs0lt (ihB 1 t rfl), rlCur_self]
              exact Nat.zero_le _
            · have hbound := ihA s
              rw [rlCur_other hst] at hbound
              rw [rlCur_other hss0]
              omega
        · simp only [Option.some.injEq, Prod.mk.injEq] at h
          obtain ⟨rfl, rfl⟩ := h
          intro e he
          rcases List.mem_cons.mp he with rfl | he'
          · exact le_of_lt hs0lt
          · exact le_trans (le_of_lt hs0lt) (ihB 1 t rfl e he')
        · rcases List.mem_cons.mp he with rfl | he'
          · exact ⟨le_refl t, show t < t + window by omega⟩
          · exact ihC e he'


/-- C4 amended: the limiter enforces its ceiling per fixed window, not per
rolling window: starting from an absent key, along any monotone sequence of
call instants, each fixed window (identified by its start) grants at most
`limit` admits, and every call it serves falls within `[start, start +
window)`. A rolling window of length `window` can span up to two fixed
windows and hence see up to twice the ceiling. -/
theorem check_rate_limit_fixed_window (limit window : Nat) (hl : 1 ≤ limit)
    (hw : 1 ≤ window) (ts : List Nat) (hmono : ts.Pairwise (· ≤ ·)) :
    (∀ s, countAdmitsTagged (rlRun limit window none ts).1 s ≤ limit) ∧
    (∀ e ∈ (rlRun limit window none ts).1, e.2.2 ≤ e.1 ∧ e.1 < e.2.2 + window) := by
  obtain ⟨hA, _, hC⟩ := rlRun_invariant limit window hl hw ts none
    (by intro c s0 h; simp at h) hmono
  exact ⟨fun s => by simpa [rlCur_none] using hA s, hC⟩

/-- Witness for `check_rate_limit_fixed_window`: limit 2, window 60 s, calls
at 0, 59, 60, 61: each fixed window (starts 0 and 60) grants at most 2. -/
theorem check_rate_limit_fixed_window_witness :
    countAdmitsTagged (rlRun 2 60 none [0, 59, 60, 61]).1 0 ≤ 2 ∧
    countAdmitsTagged (rlRun 2 60 none [0, 59, 60, 61]).1 60 ≤ 2 :=
  ⟨(check_rate_limit_fixed_window 2 60 (by decide) (by decide) [0, 59, 60, 61]
      (by decide)).1 0,
   (check_rate_limit_fixed_window 2 60 (by decide) (by decide) [0, 59, 60, 61]
      (by decide)).1 60⟩

/-- C4 counterexample: with ceiling 2 and window 60 s, calls at instants 0,
59, 60 and 61 are all admitted (the fixed window expires at 60), so the
rolling window `[55, 115)` of length 60 contains 3 admits, exceeding the
ceiling: `admit` does not bound admits per rolling window. -/
theorem check_rate_limit_rolling_window_violated :
    ((rlRun 2 60 none [0, 59, 60, 61]).1.map fun e => e.2.1)
        = [true, true, true, true] ∧
    countAdmitsIn (rlRun 2 60 none [0, 59, 60, 61]).1 55 115 = 3 ∧
    115 - 55 = 60 ∧ 2 < 3 := by
  decide

/-- C3 counterexample: redacting the protected entity of scenario B leaves
the address with only postal code and city, but the executive comes back
unchanged with `birth_date = "1970-05-15"`, not `"1970-05"`: the rules that
touch executives fire only on an `is_individual` or `person_type` marker,
which this executive does not carry. -/
theorem filter_company_scenario_b :
    filter_company
        [("siren", .str "987654321"),
         ("privacy_status", .str "P"),
         ("address", .obj [("street", .str "X"), ("postal_code", .str "75001"),
                           ("city", .str "Paris"),
                           ("geo", .obj [("lat", .num 1), ("lon", .num 2)])]),
         ("executives", .arr [.obj [("role", .str "CEO"), ("surname", .str "D"),
                                    ("birth_date", .str "1970-05-15")]])]
      = [("siren", .str "987654321"),
         ("privacy_status", .str "P"),
         ("address", .obj [("postal_code", .str "75001"), ("city", .str "Paris")]),
         ("executives", .arr [.obj [("role", .str "CEO"), ("surname", .str "D"),
                                    ("birth_date", .str "1970-05-15")]])] ∧
    ("1970-05-15" : String) ≠ "1970-05" := by
  exact ⟨rfl, by decide⟩

/-- C3 amended: redaction of a protected entity keeps only postal code and
city in its address; an executive is redacted only when tagged: with
`person_type = "PHYSIQUE"` the precise birth fields (`date_naissance_complete`,
`lieu_naissance`) are removed and `date_naissance` is masked to YYYY-MM
precision, while with `is_individual = true` the `birth_date` is removed
outright (it sits in the removal list, and removals precede masks, so its
YYYY-MM mask never applies); scenario B's untagged executive is returned
unchanged. -/
theorem privacy_redaction_behaviour :
    (jsonLookup (filter_company
        [("siren", .str "987654321"),
         ("privacy_status", .str "P"),
         ("address", .obj [("street", .str "X"), ("postal_code", .str "75001"),
                           ("city", .str "Paris"),
                           ("geo", .obj [("lat", .num 1), ("lon", .num 2)])]),
         ("executives", .arr [.obj [("role", .str "CEO"), ("surname", .str "D"),
                                    ("birth_date", .str "1970-05-15")]])]) "address"
      = some (.obj [("postal_code", .str "75001"), ("city", .str "Paris")])) ∧
    (jsonLookup (filter_company
        [("siren", .str "987654321"),
         ("privacy_status", .str "P"),
         ("address", .obj [("street", .str "X"), ("postal_code", .str "75001"),
                           ("city", .str "Paris"),
                           ("geo", .obj [("lat", .num 1), ("lon", .num 2)])]),
         ("executives", .arr [.obj [("role", .str "CEO"), ("surname", .str "D"),
                                    ("birth_date", .str "1970-05-15")]])]) "executives"
      = some (.arr [.obj [("role", .str "CEO"), ("surname", .str "D"),
                          ("birth_date", .str "1970-05-15")]])) ∧
    (apply_filters (.obj [("person_type", .str "PHYSIQUE"),
                          ("date_naissance", .str "1970-05-15"),
                          ("date_naissance_complete", .str "1970-05-15"),
                          ("lieu_naissance", .str "Paris")]) "Executive"
      = .obj [("person_type", .str "PHYSIQUE"),
              ("date_naissance", .str "1970-05")]) ∧
    (apply_filters (.obj [("is_individual", .bool true),
                          ("birth_date", .str "1970-05-15"),
                          ("birth_place", .str "Paris")]) "Executive"
      = .obj [("is_individual", .bool true)]) := by
  exact ⟨rfl, rfl, rfl, rfl⟩

/-- Helper: hex rendering doubles the byte count. -/
theorem bytesToHex_length (l : List Nat) : (bytesToHex l).length = 2 * l.length := by
  induction l with
  | nil => rfl
  | cons b rest ih =>
    simp only [bytesToHex, List.length_cons, ih]
    omega

/-- Helper: an MD5 digest has 16 bytes. -/
theorem md5DigestBytes_length (msg : List Nat) : (md5DigestBytes msg).length = 16 := by
  unfold md5DigestBytes wordsToBytes wordBytesLE
  simp

/-- Helper: an MD5 hexdigest has 32 characters. -/
theorem md5HexChars_length (msg : List Nat) : (md5HexChars msg).length = 32 := by
  unfold md5HexChars
  rw [bytesToHex_length, md5DigestBytes_length]

/-- Helper: the generated cache key is the prefix plus 16 hex characters. -/
theorem generate_cache_key_length (pfx : String) (params : List (String × JVal)) :
    (_generate_cache_key pfx params).length = pfx.length + 16 := by
  unfold _generate_cache_key
  have h16 : (String.mk ((md5HexChars (utf8Encode
      (canonicalJson (.obj params)))).take 16)).length = 16 := by
    show ((md5HexChars (utf8Encode (canonicalJson (.obj params)))).take 16).length = 16
    rw [List.length_take, md5HexChars_length]
    decide
  rw [String.length_append, h16]

/-- Helper: the key the specification describes is the namespace, a colon and
32 hex characters. -/
theorem specCacheKey_length (ns : String) (params : List (String × JVal)) :
    (specCacheKey ns params).length = ns.length + 33 := by
  unfold specCacheKey hexdigest
  have h32 : (String.mk (md5HexChars (utf8Encode
      (canonicalJson (.obj params))))).length = 32 := by
    show (md5HexChars (utf8Encode (canonicalJson (.obj params)))).length = 32
    exact md5HexChars_length _
  rw [String.length_append, String.length_append, h32]
  have hc : (":" : String).length = 1 := rfl
  omega

/-- Helper: every MD5 chunk step leaves the four state words below `2^32`. -/
theorem md5Chunk_lt (bytes : List Nat) (off : Nat) (st : Nat × Nat × Nat × Nat) :
    (md5Chunk bytes off st).1 < 4294967296 ∧
    (md5Chunk bytes off st).2.1 < 4294967296 ∧
    (md5Chunk bytes off st).2.2.1 < 4294967296 ∧
    (md5Chunk bytes off st).2.2.2 < 4294967296 := by
  unfold md5Chunk m32
  exact ⟨Nat.mod_lt _ (by norm_num), Nat.mod_lt _ (by norm_num),
    Nat.mod_lt _ (by norm_num), Nat.mod_lt _ (by norm_num)⟩

/-- Helper: the final MD5 words are below `2^32`. -/
theorem md5Words_lt (msg : List Nat) :
    (md5Words msg).1 < 4294967296 ∧ (md5Words msg).2.1 < 4294967296 ∧
    (md5Words msg).2.2.1 < 4294967296 ∧ (md5Words msg).2.2.2 < 4294967296 := by
  unfold md5Words
  have hgen : ∀ (l : List Nat) (st : Nat × Nat × Nat × Nat),
      st.1 < 4294967296 ∧ st.2.1 < 4294967296 ∧ st.2.2.1 < 4294967296 ∧
        st.2.2.2 < 4294967296 →
      (l.foldl (fun st k => md5Chunk (md5Pad msg) (64 * k) st) st).1 < 4294967296 ∧
      (l.foldl (fun st k => md5Chunk (md5Pad msg) (64 * k) st) st).2.1 < 4294967296 ∧
      (l.foldl (fun st k => md5Chunk (md5Pad msg) (64 * k) st) st).2.2.1 < 4294967296 ∧
      (l.foldl (fun st k => md5Chunk (md5Pad msg) (64 * k) st) st).2.2.2
        < 4294967296 := by
    intro l
    induction l with
    | nil => intro st h; exact h
    | cons x xs ih =>
      intro st h
      exact ih _ (md5Chunk_lt (md5Pad msg) (64 * x) st)
  exact hgen _ _ (by norm_num)

/-- Helper: the canonical JSON of `{"a": "xx…x"}` (payload of `n` letters)
has exactly `9 + n` characters, so the family is injective on canonical
JSON. -/
theorem canon_xfamily_length (n : Nat) :
    (canonicalJson (.obj [("a", .str (String.mk (List.replicate n 'x')))])).length
      = 9 + n := by
  have hjoin : ∀ m, (strConcat ((List.replicate m 'x').map jsonEscapeChar)).length
      = m := by
    intro m
    induction m with
    | zero => rfl
    | succ m ih =>
      simp only [List.replicate_succ, List.map_cons, strConcat]
      rw [String.length_append, show jsonEscapeChar 'x' = "x" from rfl, ih]
      have : ("x" : String).length = 1 := rfl
      omega
  have h1 : (jsonQuote (String.mk (List.replicate n 'x'))).length = n + 2 := by
    unfold jsonQuote
    rw [show (String.mk (List.replicate n 'x')).toList = List.replicate n 'x' from rfl]
    rw [String.length_append, String.length_append]
    have hq : ("\"" : String).length = 1 := rfl
    have := hjoin n
    omega
  have h2 : canonicalJson (.obj [("a", .str (String.mk (List.replicate n 'x')))])
      = "\x7b" ++ (jsonQuote "a" ++ ": " ++
          jsonQuote (String.mk (List.replicate n 'x'))) ++ "\x7d" := rfl
  rw [h2, String.length_append, String.length_append, String.length_append,
    String.length_append, h1]
  have hlb : ("\x7b" : String).length = 1 := rfl
  have hrb : ("\x7d" : String).length = 1 := rfl
  have ha : (jsonQuote "a").length = 3 := rfl
  have hcl : (": " : String).length = 2 := rfl
  omega

/-- C5 counterexample: the derived key is not `<ns>:<hex(md5(canonicalJson
X))>` — the code truncates the digest to its first 16 hex characters
(`hexdigest()[:16]`), so the key is 16 characters shorter than the claimed
format; moreover the truncated 64-bit digest cannot be injective: two inputs
with different canonical JSON but identical keys exist (pigeonhole over the
infinite family `{"a": "x"*n}`). -/
theorem cache_key_mismatch_and_collision :
    _generate_cache_key "search:" [("a", .num 1)]
      ≠ specCacheKey "search" [("a", .num 1)] ∧
    (∃ X Y : List (String × JVal),
      canonicalJson (.obj X) ≠ canonicalJson (.obj Y) ∧
      _generate_cache_key "search:" X = _generate_cache_key "search:" Y) := by
  constructor
  · intro h
    have hlen := congrArg String.length h
    rw [generate_cache_key_length, specCacheKey_length] at hlen
    have h7 : ("search:" : String).length = 7 := rfl
    have h6 : ("search" : String).length = 6 := rfl
    omega
  · have hb := fun n => md5Words_lt (utf8Encode (canonicalJson
      (.obj [("a", .str (String.mk (List.replicate n 'x')))])))
    obtain ⟨n, m, hnm, heq⟩ := Finite.exists_ne_map_eq_of_infinite
      (fun n : Nat =>
        ((⟨(md5Words (utf8Encode (canonicalJson
            (.obj [("a", .str (String.mk (List.replicate n 'x')))])))).1,
          (hb n).1⟩ : Fin 4294967296),
         (⟨(md5Words (utf8Encode (canonicalJson
            (.obj [("a", .str (String.mk (List.replicate n 'x')))])))).2.1,
          (hb n).2.1⟩ : Fin 4294967296),
         (⟨(md5Words (utf8Encode (canonicalJson
            (.obj [("a", .str (String.mk (List.replicate n 'x')))])))).2.2.1,
          (hb n).2.2.1⟩ : Fin 4294967296),
         (⟨(md5Words (utf8Encode (canonicalJson
            (.obj [("a", .str (String.mk (List.replicate n 'x')))])))).2.2.2,
          (hb n).2.2.2⟩ : Fin 4294967296)))
    refine ⟨[("a", .str (String.mk (List.replicate n 'x')))],
            [("a", .str (String.mk (List.replicate m 'x')))], ?_, ?_⟩
    · intro hc
      have hlen := congrArg String.length hc
      rw [canon_xfamily_length, canon_xfamily_length] at hlen
      omega
    · have e1 : (md5Words (utf8Encode (canonicalJson
          (.obj [("a", .str (String.mk (List.replicate n 'x')))])))).1
          = (md5Words (utf8Encode (canonicalJson
          (.obj [("a", .str (String.mk (List.replicate m 'x')))])))).1 :=
        congrArg (fun p => p.1.val) heq
      have e2 : (md5Words (utf8Encode (canonicalJson
          (.obj [("a", .str (String.mk (List.replicate n 'x')))])))).2.1
          = (md5Words (utf8Encode (canonicalJson
          (.obj [("a", .str (String.mk (List.replicate m 'x')))])))).2.1 :=
        congrArg (fun p => p.2.1.val) heq
      have e3 : (md5Words (utf8Encode (canonicalJson
          (.obj [("a", .str (String.mk (List.replicate n 'x')))])))).2.2.1
          = (md5Words (utf8Encode (canonicalJson
          (.obj [("a", .str (String.mk (List.replicate m 'x')))])))).2.2.1 :=
        congrArg (fun p => p.2.2.1.val) heq
      have e4 : (md5Words (utf8Encode (canonicalJson
          (.obj [("a", .str (String.mk (List.replicate n 'x')))])))).2.2.2
          = (md5Words (utf8Encode (canonicalJson
          (.obj [("a", .str (String.mk (List.replicate m 'x')))])))).2.2.2 :=
        congrArg (fun p => p.2.2.2.val) heq
      have hw : md5Words (utf8Encode (canonicalJson
          (.obj [("a", .str (String.mk (List.replicate n 'x')))])))
          = md5Words (utf8Encode (canonicalJson
          (.obj [("a", .str (String.mk (List.replicate m 'x')))]))) := by
        rw [Prod.ext_iff]
        refine ⟨e1, ?_⟩
        rw [Prod.ext_iff]
        refine ⟨e2, ?_⟩
        rw [Prod.ext_iff]
        exact ⟨e3, e4⟩
      simp only [_generate_cache_key, md5HexChars, md5DigestBytes]
      rw [hw]

/-- C5 amended: the derived key is `<prefix><first-16-hex-chars-of-md5(
canonicalJson(X))>` (the prefix already ends in the colon, and only the
first 16 of the 32 digest characters are kept); equal canonical JSON gives
equal keys — in particular two dicts differing only in key order share a
key, since canonicalJson sorts keys — but the converse fails in general for
a truncated digest. -/
theorem cache_key_canonical :
    (∀ (pfx : String) (X Y : List (String × JVal)),
        canonicalJson (.obj X) = canonicalJson (.obj Y) →
        _generate_cache_key pfx X = _generate_cache_key pfx Y) ∧
    (canonicalJson (.obj [("b", .str "x"), ("a", .num 1)])
        = "\x7b\"a\": 1, \"b\": \"x\"\x7d") ∧
    (canonicalJson (.obj [("a", .num 1), ("b", .str "x")])
        = "\x7b\"a\": 1, \"b\": \"x\"\x7d") ∧
    (∀ (pfx : String) (X : List (String × JVal)),
        (_generate_cache_key pfx X).length = pfx.length + 16) := by
  refine ⟨?_, rfl, rfl, generate_cache_key_length⟩
  intro pfx X Y h
  unfold _generate_cache_key
  rw [h]

/-- Witness for `cache_key_canonical`: the two key orders of
`{"a": 1, "b": "x"}` map to the same cache key. -/
theorem cache_key_canonical_witness :
    _generate_cache_key "search:" [("a", .num 1), ("b", .str "x")]
      = _generate_cache_key "search:" [("b", .str "x"), ("a", .num 1)] :=
  cache_key_canonical.1 "search:" _ _ (by rfl)

/-- C10: `CircuitBreaker.call` does not terminate on every reachable state.
In the `half_open` state with the probe budget exhausted it re-invokes itself
while still holding its own non-reentrant `asyncio.Lock`, so the invocation
blocks forever (outcome `blocked`) instead of returning; the deadlocked state
is reachable from a fresh breaker by one expected failure (threshold 1)
followed by three successful half-open probes. -/
theorem call_half_open_exhausted_deadlocks :
    ((⟨1, 60, 3, .HALF_OPEN, 0, some 0, 1, 3⟩ : CircuitBreaker).call 100 .ok).1
        = .blocked ∧
    ((⟨1, 60, 3, .HALF_OPEN, 0, some 0, 1, 3⟩ : CircuitBreaker).call 100 .ok).2.2
        = false ∧
    (let cb0 : CircuitBreaker := ⟨1, 60, 3, .CLOSED, 0, none, 0, 0⟩
     let s1 := (cb0.call 0 .raiseExpected).2.1
     let s2 := (s1.call 60 .ok).2.1
     let s3 := (s2.call 61 .ok).2.1
     let s4 := (s3.call 62 .ok).2.1
     s4.state = .HALF_OPEN ∧ s4.half_open_calls = 3 ∧
     (s4.call 63 .ok).1 = .blocked ∧ (s4.call 63 .ok).2.2 = false) := by
  decide

end Firmia
